import Mathlib

/-!
Verification development for the semantic core of the stc structural type
checker: module-dependency resolution and binding (analyzer/import.rs),
mapped-type expansion and property-key extraction (analyzer/types/mapped.rs),
and the builtin loader and its on-disk cache (env.rs).

The Rust data model and the functions under analysis are embedded shallowly:
machine state (symbol storage, diagnostics, the resolved-dependency cache)
is passed explicitly, fallible code returns `Except`, panics are a
distinguished error value, and external collaborators (the normalizer, the
loader, generic substitution) are either oracles passed as a record of
functions or concrete functions modelled from the specification.
-/

namespace Stc

/-- Source positions. Only their identity matters to the embedded code, so a
natural number stands for a `swc_common::Span`. -/
abbrev Span := Nat

/-- The `swc_ecma_ast::TruePlusMinus` tri-state used by mapped-type
modifiers. -/
inductive TruePlusMinus
  | true
  | plus
  | minus
deriving DecidableEq, Repr

/-- The subset of `TsKeywordTypeKind` the embedded code inspects. -/
inductive KeywordKind
  | string
  | number
  | bigint
  | boolean
  | any
  | undefined
  | null
  | unknown
  | never
  | object
  | symbol
  | void
deriving DecidableEq, Repr

/-- The `swc_ecma_ast::TsTypeOperatorOp` unary type operators. -/
inductive TsTypeOperatorOp
  | keyOf
  | unique
  | readonly
deriving DecidableEq, Repr

/-- The `RTsLit` literal payload of a literal type. Numeric values are
modelled as integers; only their identity matters here. A template literal
carries the cooked text of each quasi (`none` when it has no cooked form). -/
inductive TsLit
  | str (span : Span) (value : String)
  | num (span : Span) (value : Int)
  | bigint (span : Span) (value : Int)
  | bool (span : Span) (value : Bool)
  | tpl (span : Span) (quasisCooked : List (Option String))
deriving DecidableEq, Repr

/-- The `stc_ts_types::Key` property-name variant. -/
inductive Key
  | normal (span : Span) (sym : String)
  | num (span : Span) (value : Int)
  | bigint (span : Span) (value : Int)
deriving DecidableEq, Repr

/-- Span of a key (`key.span()`). -/
def Key.span : Key → Span
  | .normal s _ => s
  | .num s _ => s
  | .bigint s _ => s

/-- Modelled from the spec: `Key` equality "ignores source position" (§3);
the `PartialEq`/`TypeEq` implementations of `stc_ts_types::Key` are outside
`src/`. -/
def Key.typeEq : Key → Key → Bool
  | .normal _ a, .normal _ b => a == b
  | .num _ a, .num _ b => a == b
  | .bigint _ a, .bigint _ b => a == b
  | _, _ => false

/-- The `RTsEnumMemberId` of an enum member: an identifier or a string. -/
inductive EnumMemberId
  | ident (span : Span) (sym : String)
  | str (span : Span) (value : String)
deriving DecidableEq, Repr

/-- The initializer expression of an enum member is opaque to this core: it is
only ever passed to the external `validate_key`, so a token stands for it. -/
abbrev EnumVal := Nat

/-- One member of an `stc_ts_types::Enum`. -/
structure EnumMember where
  id : EnumMemberId
  val : EnumVal
deriving DecidableEq, Repr

mutual

/-- The recursive `stc_ts_types::Type` representation, restricted to the
variants the embedded functions dispatch on. `Arc`/`Instance` wrappers (which
`Type::normalize` strips) are not represented, so `Type::normalize` is the
identity here. Interface parents are named and resolved through the external
`type_of_ts_entity_name`. -/
inductive Ty
  | keyword (span : Span) (kind : KeywordKind)
  | lit (span : Span) (l : TsLit)
  | union (span : Span) (types : List Ty)
  | intersection (span : Span) (types : List Ty)
  | typeLit (span : Span) (members : List TypeElement)
  | interface (span : Span) (name : String) (body : List TypeElement) (parents : List String)
  | enum (span : Span) (members : List EnumMember)
  | enumVariant (span : Span) (enumName : String)
  | param (span : Span) (name : String) (constraint : Option Ty)
  | tuple (span : Span)
  | array (span : Span) (elemType : Ty)
  | operator (span : Span) (op : TsTypeOperatorOp) (ty : Ty)
  | mapped (span : Span) (readonly : Option TruePlusMinus) (optional : Option TruePlusMinus)
      (paramName : String) (paramConstraint : Option Ty) (template : Option Ty)
  | ref (span : Span) (name : String)
  | aliasTy (span : Span) (name : String) (ty : Ty)
  | query (span : Span) (name : String)
  | classTy (span : Span)
  | classDef (span : Span)
  | indexedAccess (span : Span) (objType : Ty) (indexType : Ty)
  | module (span : Span) (name : String) (exports : ModuleTypeData)

/-- An `stc_ts_types::TypeElement`: a member of a type literal or an
interface body. -/
inductive TypeElement
  | property (span : Span) (readonly : Bool) (key : Key) (optional : Bool) (typeAnn : Option Ty)
  | method (span : Span) (readonly : Bool) (key : Key) (optional : Bool)
  | index (span : Span) (params : List FnParam) (typeAnn : Option Ty) (readonly : Bool)
      (isStatic : Bool)
  | call (span : Span)
  | ctor (span : Span)

/-- An `stc_ts_types::FnParam`; the pattern is reduced to its binding name. -/
inductive FnParam
  | mk (span : Span) (required : Bool) (patName : String) (ty : Ty)

/-- An `stc_ts_types::ModuleTypeData` export table: public and private
name-to-type bindings; `types` supports declaration merging, so one name maps
to a list of types. -/
inductive ModuleTypeData
  | mk (vars : List (String × Ty)) (types : List (String × List Ty))
      (privateVars : List (String × Ty)) (privateTypes : List (String × List Ty))

end

/-- Accessor for the span of a `FnParam`. -/
def FnParam.span : FnParam → Span
  | .mk s _ _ _ => s

/-- Accessor for the `required` flag of a `FnParam`. -/
def FnParam.required : FnParam → Bool
  | .mk _ r _ _ => r

/-- Accessor for the binding name of a `FnParam`. -/
def FnParam.patName : FnParam → String
  | .mk _ _ n _ => n

/-- Accessor for the declared type of a `FnParam`. -/
def FnParam.ty : FnParam → Ty
  | .mk _ _ _ t => t

/-- Accessor for the public vars of an export table. -/
def ModuleTypeData.vars : ModuleTypeData → List (String × Ty)
  | .mk v _ _ _ => v

/-- Accessor for the public types of an export table. -/
def ModuleTypeData.types : ModuleTypeData → List (String × List Ty)
  | .mk _ t _ _ => t

/-- The `Type::any(span, Default::default())` constructor. -/
def Ty.any (span : Span) : Ty := .keyword span .any

/-- The `Type::is_any` test. -/
def Ty.isAny : Ty → Bool
  | .keyword _ .any => Bool.true
  | _ => Bool.false

/-- The `Type::is_kwd(kind)` test. -/
def Ty.isKwd (k : KeywordKind) : Ty → Bool
  | .keyword _ k' => k == k'
  | _ => Bool.false

/-- The `Type::is_enum_type` test. -/
def Ty.isEnumType : Ty → Bool
  | .enum _ _ => Bool.true
  | _ => Bool.false

/-- Modelled from the spec: `Type::as_array_without_readonly` lives outside
`src/`; §4.5 step 3 treats `T` as an array "ignoring a `readonly` qualifier",
so the test accepts an array or a readonly type operator applied to one. -/
def Ty.asArrayWithoutReadonly : Ty → Option (Span × Ty)
  | .array s e => some (s, e)
  | .operator _ .readonly (.array s e) => some (s, e)
  | _ => none

/-- Span-ignoring equality of a literal payload. -/
def TsLit.typeEq : TsLit → TsLit → Bool
  | .str _ a, .str _ b => a == b
  | .num _ a, .num _ b => a == b
  | .bigint _ a, .bigint _ b => a == b
  | .bool _ a, .bool _ b => a == b
  | .tpl _ a, .tpl _ b => a == b
  | _, _ => Bool.false

/-- Span-ignoring equality of enum members. -/
def enumMemberTypeEq (a b : EnumMember) : Bool :=
  (match a.id, b.id with
   | .ident _ sa, .ident _ sb => sa == sb
   | .str _ sa, .str _ sb => sa == sb
   | _, _ => Bool.false)
    && a.val == b.val

/-- Pointwise span-ignoring equality of enum member lists. -/
def enumMembersTypeEq : List EnumMember → List EnumMember → Bool
  | [], [] => Bool.true
  | a :: as', b :: bs' => enumMemberTypeEq a b && enumMembersTypeEq as' bs'
  | _, _ => Bool.false

mutual

/-- Structural, span-ignoring equality of types: the semantics of the derived
`TypeEq` used throughout `stc_ts_types` (its derive macro skips span fields),
whose implementation is outside `src/`; the spec (§3) fixes that key equality
"ignores source position". -/
def Ty.typeEq : Ty → Ty → Bool
  | .keyword _ a, .keyword _ b => a == b
  | .lit _ a, .lit _ b => TsLit.typeEq a b
  | .union _ a, .union _ b => tyListTypeEq a b
  | .intersection _ a, .intersection _ b => tyListTypeEq a b
  | .typeLit _ a, .typeLit _ b => elemListTypeEq a b
  | .interface _ na ba pa, .interface _ nb bb pb =>
      na == nb && elemListTypeEq ba bb && pa == pb
  | .enum _ a, .enum _ b => enumMembersTypeEq a b
  | .enumVariant _ a, .enumVariant _ b => a == b
  | .param _ na ca, .param _ nb cb => na == nb && tyOptTypeEq ca cb
  | .tuple _, .tuple _ => Bool.true
  | .array _ a, .array _ b => Ty.typeEq a b
  | .operator _ oa ta, .operator _ ob tb => oa == ob && Ty.typeEq ta tb
  | .mapped _ ra oa na ca ta, .mapped _ rb ob nb cb tb =>
      ra == rb && oa == ob && na == nb && tyOptTypeEq ca cb && tyOptTypeEq ta tb
  | .ref _ a, .ref _ b => a == b
  | .aliasTy _ na ta, .aliasTy _ nb tb => na == nb && Ty.typeEq ta tb
  | .query _ a, .query _ b => a == b
  | .classTy _, .classTy _ => Bool.true
  | .classDef _, .classDef _ => Bool.true
  | .indexedAccess _ oa ia, .indexedAccess _ ob ib => Ty.typeEq oa ob && Ty.typeEq ia ib
  | .module _ na ea, .module _ nb eb => na == nb && ModuleTypeData.typeEq ea eb
  | _, _ => Bool.false
termination_by a _ => sizeOf a

/-- Pointwise span-ignoring equality of type lists. -/
def tyListTypeEq : List Ty → List Ty → Bool
  | [], [] => Bool.true
  | a :: as', b :: bs' => Ty.typeEq a b && tyListTypeEq as' bs'
  | _, _ => Bool.false
termination_by a _ => sizeOf a

/-- Span-ignoring equality of optional types. -/
def tyOptTypeEq : Option Ty → Option Ty → Bool
  | none, none => Bool.true
  | some a, some b => Ty.typeEq a b
  | _, _ => Bool.false
termination_by a _ => sizeOf a

/-- Span-ignoring equality of type-literal members. -/
def TypeElement.typeEq : TypeElement → TypeElement → Bool
  | .property _ ra ka oa ta, .property _ rb kb ob tb =>
      ra == rb && Key.typeEq ka kb && oa == ob && tyOptTypeEq ta tb
  | .method _ ra ka oa, .method _ rb kb ob => ra == rb && Key.typeEq ka kb && oa == ob
  | .index _ pa ta ra sa, .index _ pb tb rb sb =>
      fnParamListTypeEq pa pb && tyOptTypeEq ta tb && ra == rb && sa == sb
  | .call _, .call _ => Bool.true
  | .ctor _, .ctor _ => Bool.true
  | _, _ => Bool.false
termination_by a _ => sizeOf a

/-- Pointwise span-ignoring equality of member lists. -/
def elemListTypeEq : List TypeElement → List TypeElement → Bool
  | [], [] => Bool.true
  | a :: as', b :: bs' => TypeElement.typeEq a b && elemListTypeEq as' bs'
  | _, _ => Bool.false
termination_by a _ => sizeOf a

/-- Span-ignoring equality of function parameters. -/
def FnParam.typeEq : FnParam → FnParam → Bool
  | .mk _ ra na ta, .mk _ rb nb tb => ra == rb && na == nb && Ty.typeEq ta tb
termination_by a _ => sizeOf a

/-- Pointwise span-ignoring equality of parameter lists. -/
def fnParamListTypeEq : List FnParam → List FnParam → Bool
  | [], [] => Bool.true
  | a :: as', b :: bs' => FnParam.typeEq a b && fnParamListTypeEq as' bs'
  | _, _ => Bool.false
termination_by a _ => sizeOf a

/-- Span-ignoring equality of export tables. -/
def ModuleTypeData.typeEq : ModuleTypeData → ModuleTypeData → Bool
  | .mk va ta pva pta, .mk vb tb pvb ptb =>
      namedTyListTypeEq va vb && namedTyListsTypeEq ta tb
        && namedTyListTypeEq pva pvb && namedTyListsTypeEq pta ptb
termination_by a _ => sizeOf a

/-- Pointwise span-ignoring equality of named type bindings. -/
def namedTyListTypeEq : List (String × Ty) → List (String × Ty) → Bool
  | [], [] => Bool.true
  | (na, ta) :: as', (nb, tb) :: bs' => na == nb && Ty.typeEq ta tb && namedTyListTypeEq as' bs'
  | _, _ => Bool.false
termination_by a _ => sizeOf a

/-- Pointwise span-ignoring equality of merged named type bindings. -/
def namedTyListsTypeEq : List (String × List Ty) → List (String × List Ty) → Bool
  | [], [] => Bool.true
  | (na, ta) :: as', (nb, tb) :: bs' => na == nb && tyListTypeEq ta tb && namedTyListsTypeEq as' bs'
  | _, _ => Bool.false
termination_by a _ => sizeOf a

end

/-- The `PropertyName` result of property-key extraction
(`analyzer/types/mapped.rs`): a concrete key, or an index signature. -/
inductive PropertyName
  | key (k : Key)
  | indexSignature (span : Span) (params : List FnParam) (readonly : Bool)

/-- The `From<Key> for PropertyName` conversion. -/
def PropertyName.ofKey (k : Key) : PropertyName := .key k

/-- Span-ignoring structural equality of `PropertyName` (the derived `TypeEq`,
also standing for the `PartialEq` used by `contains`, which the spec fixes as
"structural equality, span-ignored"). -/
def PropertyName.typeEq : PropertyName → PropertyName → Bool
  | .key a, .key b => Key.typeEq a b
  | .indexSignature _ pa ra, .indexSignature _ pb rb => fnParamListTypeEq pa pb && ra == rb
  | _, _ => Bool.false

/-- Modelled from the spec: `apply_mapped_flags` (crate
`stc_ts_base_type_ops`, outside `src/`) applies the optional/readonly
tri-states member-wise; "absent leaves the member's own flag; `true` or `plus`
forces true; `minus` forces false" (§4.5). -/
def applyFlag (own : Bool) : Option TruePlusMinus → Bool
  | none => own
  | some .true => Bool.true
  | some .plus => Bool.true
  | some .minus => Bool.false

/-- Modelled from the spec: member-wise application of the mapped-type
tri-state modifiers; call/constructor members carry no flags. -/
def applyMappedFlags (el : TypeElement) (optional readonly : Option TruePlusMinus) : TypeElement :=
  match el with
  | .property s ro k opt ann => .property s (applyFlag ro readonly) k (applyFlag opt optional) ann
  | .method s ro k opt => .method s (applyFlag ro readonly) k (applyFlag opt optional)
  | .index s ps ann ro st => .index s ps ann (applyFlag ro readonly) st
  | other => other

mutual

/-- Modelled from the spec: `expand_type_params` (crate `stc_ts_generics`,
outside `src/`) "substitutes the key's own type for the type parameter inside
the template" (§4.5); a type-parameter reference whose name is bound is
replaced by its binding, every other node is mapped structurally. -/
def substTy (bindings : List (String × Ty)) : Ty → Ty
  | .param s n c =>
      match bindings.find? (fun b => b.1 == n) with
      | some b => b.2
      | none => .param s n (substTyOpt bindings c)
  | .keyword s k => .keyword s k
  | .lit s l => .lit s l
  | .union s ts => .union s (substTyList bindings ts)
  | .intersection s ts => .intersection s (substTyList bindings ts)
  | .typeLit s ms => .typeLit s (substElems bindings ms)
  | .interface s n b p => .interface s n (substElems bindings b) p
  | .enum s ms => .enum s ms
  | .enumVariant s n => .enumVariant s n
  | .tuple s => .tuple s
  | .array s e => .array s (substTy bindings e)
  | .operator s op t => .operator s op (substTy bindings t)
  | .mapped s ro opt n c tpl =>
      .mapped s ro opt n (substTyOpt bindings c) (substTyOpt bindings tpl)
  | .ref s n => .ref s n
  | .aliasTy s n t => .aliasTy s n (substTy bindings t)
  | .query s n => .query s n
  | .classTy s => .classTy s
  | .classDef s => .classDef s
  | .indexedAccess s o i => .indexedAccess s (substTy bindings o) (substTy bindings i)
  | .module s n e => .module s n e
termination_by t => sizeOf t

/-- Substitution mapped over an optional type. -/
def substTyOpt (bindings : List (String × Ty)) : Option Ty → Option Ty
  | none => none
  | some t => some (substTy bindings t)
termination_by t => sizeOf t

/-- Substitution mapped over a list of types. -/
def substTyList (bindings : List (String × Ty)) : List Ty → List Ty
  | [] => []
  | t :: ts => substTy bindings t :: substTyList bindings ts
termination_by ts => sizeOf ts

/-- Substitution mapped over type-literal members. -/
def substElems (bindings : List (String × Ty)) : List TypeElement → List TypeElement
  | [] => []
  | .property s ro k opt ann :: ms =>
      .property s ro k opt (substTyOpt bindings ann) :: substElems bindings ms
  | .method s ro k opt :: ms => .method s ro k opt :: substElems bindings ms
  | .index s ps ann ro st :: ms =>
      .index s (substParams bindings ps) (substTyOpt bindings ann) ro st
        :: substElems bindings ms
  | .call s :: ms => .call s :: substElems bindings ms
  | .ctor s :: ms => .ctor s :: substElems bindings ms
termination_by ms => sizeOf ms

/-- Substitution mapped over parameter lists. -/
def substParams (bindings : List (String × Ty)) : List FnParam → List FnParam
  | [] => []
  | .mk s r n t :: ps => .mk s r n (substTy bindings t) :: substParams bindings ps
termination_by ps => sizeOf ps

end

mutual

/-- The `TypeParamNameUsageFinder` visitor: does the type contain any
type-parameter node? -/
def containsTypeParam : Ty → Bool
  | .param _ _ _ => Bool.true
  | .keyword _ _ => Bool.false
  | .lit _ _ => Bool.false
  | .union _ ts => tyListContainsParam ts
  | .intersection _ ts => tyListContainsParam ts
  | .typeLit _ ms => elemsContainParam ms
  | .interface _ _ b _ => elemsContainParam b
  | .enum _ _ => Bool.false
  | .enumVariant _ _ => Bool.false
  | .tuple _ => Bool.false
  | .array _ e => containsTypeParam e
  | .operator _ _ t => containsTypeParam t
  | .mapped _ _ _ _ c tpl => optContainsParam c || optContainsParam tpl
  | .ref _ _ => Bool.false
  | .aliasTy _ _ t => containsTypeParam t
  | .query _ _ => Bool.false
  | .classTy _ => Bool.false
  | .classDef _ => Bool.false
  | .indexedAccess _ o i => containsTypeParam o || containsTypeParam i
  | .module _ _ _ => Bool.false
termination_by t => sizeOf t

/-- Param search over a list of types. -/
def tyListContainsParam : List Ty → Bool
  | [] => Bool.false
  | t :: ts => containsTypeParam t || tyListContainsParam ts
termination_by ts => sizeOf ts

/-- Param search over an optional type. -/
def optContainsParam : Option Ty → Bool
  | none => Bool.false
  | some t => containsTypeParam t
termination_by t => sizeOf t

/-- Param search over members. -/
def elemsContainParam : List TypeElement → Bool
  | [] => Bool.false
  | .property _ _ _ _ ann :: ms => optContainsParam ann || elemsContainParam ms
  | .method _ _ _ _ :: ms => elemsContainParam ms
  | .index _ ps ann _ _ :: ms =>
      paramsContainParam ps || optContainsParam ann || elemsContainParam ms
  | .call _ :: ms => elemsContainParam ms
  | .ctor _ :: ms => elemsContainParam ms
termination_by ms => sizeOf ms

/-- Param search over parameter lists. -/
def paramsContainParam : List FnParam → Bool
  | [] => Bool.false
  | .mk _ _ _ t :: ps => containsTypeParam t || paramsContainParam ps
termination_by ps => sizeOf ps

end

/-- The match condition of `IndexedAccessTypeFinder`/`IndexedAccessTypeReplacer`:
an indexed access `obj[index]` whose object is structurally equal to the keyof
operand and whose index is the mapped type's own parameter. -/
def isReplaceableIndexedAccess (obj : Ty) (paramName : String) (o i : Ty) : Bool :=
  Ty.typeEq o obj
    && (match i with
        | .param _ n _ => paramName == n
        | _ => Bool.false)

mutual

/-- The `IndexedAccessTypeFinder` visitor: does the type contain an indexed
access `obj[K]` with `obj` equal to the keyof operand and `K` the mapped
type's parameter? -/
def canReplaceIndexedType (obj : Ty) (key : String) : Ty → Bool
  | .indexedAccess _ o i =>
      isReplaceableIndexedAccess obj key o i
        || canReplaceIndexedType obj key o || canReplaceIndexedType obj key i
  | .union _ ts => listCanReplace obj key ts
  | .intersection _ ts => listCanReplace obj key ts
  | .typeLit _ ms => elemsCanReplace obj key ms
  | .interface _ _ b _ => elemsCanReplace obj key b
  | .array _ e => canReplaceIndexedType obj key e
  | .operator _ _ t => canReplaceIndexedType obj key t
  | .mapped _ _ _ _ c tpl => optCanReplace obj key c || optCanReplace obj key tpl
  | .aliasTy _ _ t => canReplaceIndexedType obj key t
  | .param _ _ c => optCanReplace obj key c
  | _ => Bool.false
termination_by t => sizeOf t

/-- Finder search over a list of types. -/
def listCanReplace (obj : Ty) (key : String) : List Ty → Bool
  | [] => Bool.false
  | t :: ts => canReplaceIndexedType obj key t || listCanReplace obj key ts
termination_by ts => sizeOf ts

/-- Finder search over an optional type. -/
def optCanReplace (obj : Ty) (key : String) : Option Ty → Bool
  | none => Bool.false
  | some t => canReplaceIndexedType obj key t
termination_by t => sizeOf t

/-- Finder search over members. -/
def elemsCanReplace (obj : Ty) (key : String) : List TypeElement → Bool
  | [] => Bool.false
  | .property _ _ _ _ ann :: ms => optCanReplace obj key ann || elemsCanReplace obj key ms
  | .method _ _ _ _ :: ms => elemsCanReplace obj key ms
  | .index _ ps ann _ _ :: ms =>
      paramsCanReplace obj key ps || optCanReplace obj key ann || elemsCanReplace obj key ms
  | .call _ :: ms => elemsCanReplace obj key ms
  | .ctor _ :: ms => elemsCanReplace obj key ms
termination_by ms => sizeOf ms

/-- Finder search over parameter lists. -/
def paramsCanReplace (obj : Ty) (key : String) : List FnParam → Bool
  | [] => Bool.false
  | .mk _ _ _ t :: ps => canReplaceIndexedType obj key t || paramsCanReplace obj key ps
termination_by ps => sizeOf ps

end

mutual

/-- The `IndexedAccessTypeReplacer` visitor: rewrite every matching `obj[K]`
occurrence to `obj` itself. -/
def replaceIndexedType (obj : Ty) (key : String) : Ty → Ty
  | .indexedAccess s o i =>
      if isReplaceableIndexedAccess obj key o i then obj
      else .indexedAccess s (replaceIndexedType obj key o) (replaceIndexedType obj key i)
  | .union s ts => .union s (listReplaceIndexed obj key ts)
  | .intersection s ts => .intersection s (listReplaceIndexed obj key ts)
  | .typeLit s ms => .typeLit s (elemsReplaceIndexed obj key ms)
  | .interface s n b p => .interface s n (elemsReplaceIndexed obj key b) p
  | .array s e => .array s (replaceIndexedType obj key e)
  | .operator s op t => .operator s op (replaceIndexedType obj key t)
  | .mapped s ro opt n c tpl =>
      .mapped s ro opt n (optReplaceIndexed obj key c) (optReplaceIndexed obj key tpl)
  | .aliasTy s n t => .aliasTy s n (replaceIndexedType obj key t)
  | .param s n c => .param s n (optReplaceIndexed obj key c)
  | other => other
termination_by t => sizeOf t

/-- Replacement mapped over a list of types. -/
def listReplaceIndexed (obj : Ty) (key : String) : List Ty → List Ty
  | [] => []
  | t :: ts => replaceIndexedType obj key t :: listReplaceIndexed obj key ts
termination_by ts => sizeOf ts

/-- Replacement mapped over an optional type. -/
def optReplaceIndexed (obj : Ty) (key : String) : Option Ty → Option Ty
  | none => none
  | some t => some (replaceIndexedType obj key t)
termination_by t => sizeOf t

/-- Replacement mapped over members. -/
def elemsReplaceIndexed (obj : Ty) (key : String) : List TypeElement → List TypeElement
  | [] => []
  | .property s ro k opt ann :: ms =>
      .property s ro k opt (optReplaceIndexed obj key ann) :: elemsReplaceIndexed obj key ms
  | .method s ro k opt :: ms => .method s ro k opt :: elemsReplaceIndexed obj key ms
  | .index s ps ann ro st :: ms =>
      .index s (paramsReplaceIndexed obj key ps) (optReplaceIndexed obj key ann) ro st
        :: elemsReplaceIndexed obj key ms
  | .call s :: ms => .call s :: elemsReplaceIndexed obj key ms
  | .ctor s :: ms => .ctor s :: elemsReplaceIndexed obj key ms
termination_by ms => sizeOf ms

/-- Replacement mapped over parameter lists. -/
def paramsReplaceIndexed (obj : Ty) (key : String) : List FnParam → List FnParam
  | [] => []
  | .mk s r n t :: ps => .mk s r n (replaceIndexedType obj key t) :: paramsReplaceIndexed obj key ps
termination_by ps => sizeOf ps

end

/-- Errors of the embedded analyzer computations: an analysis error coming
from an external collaborator, a panic (`unreachable!`, `unimplemented!`,
out-of-bounds indexing), or exhaustion of the recursion allowance that stands
in for the unbounded recursion of the Rust code. -/
inductive TyError
  | fuel
  | externalErr
  | panicErr
deriving DecidableEq, Repr

/-- The `NormalizeTypeOpts` fields read by the embedded code. -/
structure NormalizeTypeOpts where
  preserveGlobalThis : Bool := Bool.false
  preserveUnion : Bool := Bool.false
  normalizeKeywords : Bool := Bool.false
deriving DecidableEq, Repr

/-- External collaborators of `Analyzer` used by the mapped-type code but
implemented outside `src/`: the full normalizer, type-literal conversion,
generic-parameter substitution, entity-name resolution, key validation and
type lookup. They are passed as a record of functions, mirroring `self`. -/
structure Ops where
  normalize : Span → Ty → NormalizeTypeOpts → Except TyError Ty
  convertTypeToTypeLit : Span → Ty → Except TyError (Option (Span × List TypeElement))
  expandTypeParams : List (String × Ty) → Ty → Except TyError Ty
  typeOfTsEntityName : Span → String → Except TyError Ty
  validateKey : EnumVal → Except TyError Key
  findType : String → Except TyError (Option (List Ty))

/-- Modelled from the spec: `Key::ty` (in `stc_ts_types`, outside `src/`)
gives "the key's own type" (§4.5 rule 3), the literal type of the key. -/
def Key.ty : Key → Ty
  | .normal s sym => .lit s (.str s sym)
  | .num s v => .lit s (.num s v)
  | .bigint s v => .lit s (.bigint s v)

/-- Modelled from the spec: a concrete instance of the external collaborators,
used to evaluate the embedded functions on closed inputs. The normalizer is
the identity (theorems state their hypotheses on the normalized type), the
type-literal conversion is defined exactly on type literals (§4.5 step 3
requires arrays to reach the homomorphic array rule, so conversion yields
nothing on them), substitution is the structural substitution of §4.5 rule 3,
and name resolution yields `any`. -/
def specOps : Ops :=
  { normalize := fun _ t _ => .ok t,
    convertTypeToTypeLit := fun _ t =>
      match t with
      | .typeLit s ms => .ok (some (s, ms))
      | _ => .ok none,
    expandTypeParams := fun bindings t => .ok (substTy bindings t),
    typeOfTsEntityName := fun s _ => .ok (Ty.any s),
    validateKey := fun v => .ok (.num 0 (Int.ofNat v)),
    findType := fun _ => .ok none }

/-- The `stc_ts_types::Mapped` payload of a mapped type, as consumed by
`expand_mapped`. -/
structure MappedData where
  span : Span
  readonly : Option TruePlusMinus
  optional : Option TruePlusMinus
  paramName : String
  constraint : Option Ty
  template : Option Ty

/-- The `collect::<Result<Vec<_>, _>>()` idiom: map a fallible function over
a list, stopping at the first error. -/
def exceptMapList {A B : Type} (f : A → Except TyError B) : List A → Except TyError (List B)
  | [] => .ok []
  | a :: as' =>
    match f a with
    | .error e => .error e
    | .ok b =>
      match exceptMapList f as' with
      | .error e => .error e
      | .ok bs => .ok (b :: bs)

/-- The union arm of `convert_type_to_keys`: concatenate the recursive results
left to right; the first operand that yields no keys makes the whole union
yield none, and errors propagate. -/
def convertKeysUnionLoop (recur : Ty → Except TyError (Option (List Key))) :
    List Ty → List Key → Except TyError (Option (List Key))
  | [], acc => .ok (some acc)
  | t :: ts, acc =>
    match recur t with
    | .error e => .error e
    | .ok none => .ok none
    | .ok (some ks) => convertKeysUnionLoop recur ts (acc ++ ks)

/-- The enum arm of `convert_type_to_keys`: keep each member whose initializer
validates as a key, silently skipping the others. -/
def convertKeysEnumLoop (validate : EnumVal → Except TyError Key) :
    List EnumMember → List Key → List Key
  | [], acc => acc
  | m :: ms, acc =>
    match validate m.val with
    | .ok k => convertKeysEnumLoop validate ms (acc ++ [k])
    | .error _ => convertKeysEnumLoop validate ms acc

/-- The enum-variant arm of `convert_type_to_keys`: recurse into each
enum-shaped type found for the name, flattening missing results to nothing. -/
def convertKeysEnumVariantLoop (recur : Ty → Except TyError (Option (List Key))) :
    List Ty → List Key → Except TyError (Option (List Key))
  | [], acc => .ok (some acc)
  | t :: ts, acc =>
    if t.isEnumType then
      match recur t with
      | .error e => .error e
      | .ok items => convertKeysEnumVariantLoop recur ts (acc ++ items.getD [])
    else convertKeysEnumVariantLoop recur ts acc

/-- The `convert_type_to_keys` literal-key conversion
(`analyzer/types/mapped.rs`): evaluate a type to an explicit key list when
possible. The `Nat` argument bounds the recursion through the normalizer that
the Rust code performs unboundedly. -/
def convert_type_to_keys (ops : Ops) : Nat → Span → Ty → Except TyError (Option (List Key))
  | 0, _, _ => .error .fuel
  | fuel + 1, span, ty =>
    match ty with
    | .ref s n =>
      match ops.normalize span (.ref s n)
          { preserveGlobalThis := Bool.true, preserveUnion := Bool.true } with
      | .error e => .error e
      | .ok ty' => convert_type_to_keys ops fuel span ty'
    | .aliasTy s n t =>
      match ops.normalize span (.aliasTy s n t)
          { preserveGlobalThis := Bool.true, preserveUnion := Bool.true } with
      | .error e => .error e
      | .ok ty' => convert_type_to_keys ops fuel span ty'
    | .query s n =>
      match ops.normalize span (.query s n)
          { preserveGlobalThis := Bool.true, preserveUnion := Bool.true } with
      | .error e => .error e
      | .ok ty' => convert_type_to_keys ops fuel span ty'
    | .lit _ l =>
      match l with
      | .bigint s v => .ok (some [Key.bigint s v])
      | .num s v => .ok (some [Key.num s v])
      | .str s v => .ok (some [Key.normal s v])
      | .tpl s qs =>
        match qs with
        | [some v] => .ok (some [Key.normal s v])
        | [none] => .ok none
        | _ => .ok none
      | .bool _ _ => .ok none
    | .union _ tys => convertKeysUnionLoop (convert_type_to_keys ops fuel span) tys []
    | .enum _ members => .ok (some (convertKeysEnumLoop ops.validateKey members []))
    | .enumVariant _ enumName =>
      match ops.findType enumName with
      | .error e => .error e
      | .ok (some tys) => convertKeysEnumVariantLoop (convert_type_to_keys ops fuel span) tys []
      | .ok none => .ok (some [])
    | .typeLit _ _ => .ok none
    | .interface _ _ _ _ => .ok none
    | .classTy _ => .ok none
    | .classDef _ => .ok none
    | _ => .ok none

/-- Key collection over type-literal or interface members
(`get_property_names_for_mapped_type`): one entry per property or method,
one index-signature entry per index signature; call and constructor members
are skipped. -/
def typeLitKeys : List TypeElement → List PropertyName
  | [] => []
  | .call _ :: ms => typeLitKeys ms
  | .ctor _ :: ms => typeLitKeys ms
  | .property _ _ k _ _ :: ms => .key k :: typeLitKeys ms
  | .method _ _ k _ :: ms => .key k :: typeLitKeys ms
  | .index s ps _ ro _ :: ms => .indexSignature s ps ro :: typeLitKeys ms

/-- The enum arm of `get_property_names_for_mapped_type`: a normal key per
member, from its identifier or string name. -/
def enumMemberPropertyKey (m : EnumMember) : Key :=
  match m.id with
  | .ident s sym => .normal s sym
  | .str s v => .normal s v

/-- One step of the dedup-push loop used by the intersection and union arms:
append the key unless a structurally equal one is already present. -/
def dedupPushPropertyName (result : List PropertyName) (key : PropertyName) :
    List PropertyName :=
  if result.any (fun prev => prev.typeEq key) then result else result ++ [key]

/-- The intersection arm of `get_property_names_for_mapped_type`: start from
the first operand's keys, keep those present in every other operand that
succeeded (a failed operand imposes no constraint), deduplicate, and treat an
empty retained set as failure. -/
def intersectPropertyNames (keysTypes : List (Option (List PropertyName))) :
    Option (List PropertyName) :=
  if keysTypes.isEmpty then none
  else if keysTypes.all Option.isNone then none
  else
    let sets := keysTypes.tail
    let firstKeys := (keysTypes.head?.getD none).getD []
    let filtered := firstKeys.filter (fun item =>
      sets.all (fun set => set.isNone || (set.getD []).any (fun x => x.typeEq item)))
    let result := filtered.foldl dedupPushPropertyName []
    if result.isEmpty then none else some result

/-- The union arm of `get_property_names_for_mapped_type`: if every operand
failed, fail; otherwise union all keys of the operands that succeeded,
deduplicated in first-seen order. -/
def unionPropertyNames (keysTypes : List (Option (List PropertyName))) :
    Option (List PropertyName) :=
  if keysTypes.all Option.isNone then none
  else some (keysTypes.foldl (fun acc o => (o.getD []).foldl dedupPushPropertyName acc) [])

/-- The parent loop of the interface arm: resolve each extended parent and
append its extraction result when it succeeds. -/
def interfaceParentsLoop (ops : Ops) (recur : Ty → Except TyError (Option (List PropertyName)))
    (span : Span) : List String → List PropertyName → Except TyError (Option (List PropertyName))
  | [], acc => .ok (some acc)
  | p :: ps, acc =>
    match ops.typeOfTsEntityName span p with
    | .error e => .error e
    | .ok parent =>
      match recur parent with
      | .error e => .error e
      | .ok (some ks) => interfaceParentsLoop ops recur span ps (acc ++ ks)
      | .ok none => interfaceParentsLoop ops recur span ps acc

/-- The `get_property_names_for_mapped_type` property-key extraction
(`analyzer/types/mapped.rs`): the optional list of property names of a type.
The `Nat` argument bounds the recursion through the normalizer and the
entity-name resolver that the Rust code performs unboundedly. -/
def get_property_names_for_mapped_type (ops : Ops) :
    Nat → Span → Ty → Except TyError (Option (List PropertyName))
  | 0, _, _ => .error .fuel
  | fuel + 1, span, ty0 =>
    match ops.normalize span ty0 { normalizeKeywords := Bool.true } with
    | .error e => .error e
    | .ok ty =>
      if ty.isAny then .ok none
      else
        match ty with
        | .keyword _ .undefined => .ok (some [])
        | .keyword _ .null => .ok (some [])
        | .typeLit _ members => .ok (some (typeLitKeys members))
        | .interface _ _ body parents =>
            interfaceParentsLoop ops (get_property_names_for_mapped_type ops fuel span) span
              parents (typeLitKeys body)
        | .enum _ members =>
            .ok (some (members.map (fun m => PropertyName.key (enumMemberPropertyKey m))))
        | .param _ _ _ => .ok none
        | .intersection _ tys =>
            match exceptMapList (get_property_names_for_mapped_type ops fuel span) tys with
            | .error e => .error e
            | .ok keysTypes => .ok (intersectPropertyNames keysTypes)
        | .union _ tys =>
            match exceptMapList (get_property_names_for_mapped_type ops fuel span) tys with
            | .error e => .error e
            | .ok keysTypes => .ok (unionPropertyNames keysTypes)
        | .tuple _ => .ok none
        | .array _ _ => .ok none
        | .mapped _ _ _ _ c _ =>
            match c with
            | some (.operator _ .keyOf t) => get_property_names_for_mapped_type ops fuel span t
            | _ => .ok none
        | _ => .ok none

/-- The readonly flag derived from the mapped type's tri-state in the
string/number-constraint branch of `expand_mapped_inner`:
`m.readonly.map_or(false, ...)`. -/
def readonlyFromTriState : Option TruePlusMinus → Bool
  | none => Bool.false
  | some .true => Bool.true
  | some .plus => Bool.true
  | some .minus => Bool.false

/-- The readonly flag of an expanded index signature in the keyof branch: the
tri-state when set, otherwise the signature's own stored flag. -/
def indexReadonly : Option TruePlusMinus → Bool → Bool
  | some .true, _ => Bool.true
  | some .plus, _ => Bool.true
  | some .minus, _ => Bool.false
  | none, own => own

/-- The `expand_key_in_mapped` helper: substitute the key's own type for the
mapped type's parameter inside the template. -/
def expand_key_in_mapped (ops : Ops) (mappedTypeParam : String) (mappedTy : Ty) (key : Key) :
    Except TyError Ty :=
  ops.expandTypeParams [(mappedTypeParam, key.ty)] mappedTy

/-- The property member built for one extracted key, shared by the
literal-key branch of `expand_mapped_inner` and the key branch of
`expand_mapped_type_with_keyof`: an unflagged property for the key, valued by
the substituted template when one exists, with the tri-states applied. -/
def mkMappedProperty (ops : Ops) (m : MappedData) (key : Key) : Except TyError TypeElement :=
  match m.template with
  | some mappedTy =>
    match expand_key_in_mapped ops m.paramName mappedTy key with
    | .error e => .error e
    | .ok t =>
      .ok (applyMappedFlags (.property key.span Bool.false key Bool.false (some t))
        m.optional m.readonly)
  | none =>
    .ok (applyMappedFlags (.property key.span Bool.false key Bool.false none)
      m.optional m.readonly)

/-- The index member built for one extracted index signature in the keyof
branch: the first parameter's type is substituted for the mapped type's
parameter inside the template (indexing an empty parameter list panics). -/
def mkMappedIndex (ops : Ops) (m : MappedData) (isp : Span) (params : List FnParam) (ro : Bool) :
    Except TyError TypeElement :=
  match m.template with
  | some mappedTy =>
    match params with
    | [] => .error .panicErr
    | p :: _ =>
      match ops.expandTypeParams [(m.paramName, p.ty)] mappedTy with
      | .error e => .error e
      | .ok t => .ok (.index isp params (some t) (indexReadonly m.readonly ro) Bool.false)
  | none => .ok (.index isp params none (indexReadonly m.readonly ro) Bool.false)

/-- The `apply_mapped_flags_to_type` helper: convert to a type literal when
possible and apply the tri-states member-wise, otherwise return the type
unchanged. -/
def apply_mapped_flags_to_type (ops : Ops) (span : Span) (ty : Ty)
    (optional readonly : Option TruePlusMinus) : Except TyError Ty :=
  match ops.convertTypeToTypeLit span ty with
  | .error e => .error e
  | .ok (some (s, members)) =>
      .ok (.typeLit s (members.map (fun mem => applyMappedFlags mem optional readonly)))
  | .ok none => .ok ty

/-- The `expand_mapped_type_with_keyof` keyof-expansion algorithm
(`analyzer/types/mapped.rs`): normalize the operand; shortcut when it equals
the template; homomorphic rule over arrays; bounded propagation through a
constrained type parameter; property-key extraction; and the sound
indexed-access rewrite, in that order. The `Nat` argument bounds the
recursion that the Rust code performs unboundedly. -/
def expand_mapped_type_with_keyof (ops : Ops) :
    Nat → Span → Ty → MappedData → Except TyError (Option Ty)
  | 0, _, _, _ => .error .fuel
  | fuel + 1, span, keyofOperand0, m =>
    match ops.normalize span keyofOperand0 {} with
    | .error e => .error e
    | .ok keyofOperand =>
      let step6 : Except TyError (Option Ty) :=
        match m.template with
        | some mappedTy =>
          if containsTypeParam keyofOperand then .ok none
          else if canReplaceIndexedType keyofOperand m.paramName mappedTy then
            match apply_mapped_flags_to_type ops span
                (replaceIndexedType keyofOperand m.paramName mappedTy) m.optional m.readonly with
            | .error e => .error e
            | .ok t => .ok (some t)
          else .ok none
        | none => .ok none
      let step5 : Except TyError (Option Ty) :=
        match get_property_names_for_mapped_type ops fuel span keyofOperand with
        | .error e => .error e
        | .ok (some keys) =>
          match exceptMapList (fun pn =>
            match pn with
            | PropertyName.key k => mkMappedProperty ops m k
            | PropertyName.indexSignature s ps ro => mkMappedIndex ops m s ps ro) keys with
          | .error e => .error e
          | .ok members => .ok (some (.typeLit m.span members))
        | .ok none => step6
      let afterArray : Except TyError (Option Ty) :=
        match keyofOperand with
        | .param _ _ (some constraint) =>
          match expand_mapped_type_with_keyof ops fuel span constraint m with
          | .error e => .error e
          | .ok (some v) => .ok (some v)
          | .ok none => step5
        | _ => step5
      let afterIdentity : Except TyError (Option Ty) :=
        match keyofOperand.asArrayWithoutReadonly with
        | some _ => .ok (some (.array span (m.template.getD (Ty.any span))))
        | none => afterArray
      match m.template with
      | some mappedTy =>
        if Ty.typeEq keyofOperand mappedTy then
          match ops.convertTypeToTypeLit span keyofOperand with
          | .error e => .error e
          | .ok (some (s, members)) =>
              .ok (some (.typeLit s
                (members.map (fun mem => applyMappedFlags mem m.optional m.readonly))))
          | .ok none => afterIdentity
        else afterIdentity
      | none => afterIdentity

/-- The dispatch of `expand_mapped_inner`: a `keyof` constraint delegates to
the keyof algorithm; a bare `string`/`number` constraint produces one index
signature; a constraint convertible to literal keys produces one property per
key; anything else leaves the mapped type unexpanded (`None`, not an
error). -/
def expand_mapped_inner (ops : Ops) (fuel : Nat) (span : Span) (m : MappedData) :
    Except TyError (Option Ty) :=
  match m.constraint with
  | some (.operator _ .keyOf keyofOperand) =>
      expand_mapped_type_with_keyof ops fuel span keyofOperand m
  | _ =>
    match m.constraint with
    | some constraint =>
      if constraint.isKwd .string || constraint.isKwd .number then
        .ok (some (.typeLit m.span
          [.index m.span [FnParam.mk span Bool.true "___mapped" constraint] m.template
            (readonlyFromTriState m.readonly) Bool.false]))
      else
        match convert_type_to_keys ops fuel span constraint with
        | .error e => .error e
        | .ok (some keys) =>
          match exceptMapList (mkMappedProperty ops m) keys with
          | .error e => .error e
          | .ok members => .ok (some (.typeLit m.span members))
        | .ok none => .ok none
    | none => .ok none

/-- The public `expand_mapped` entry point; the Rust wrapper only adds
logging around `expand_mapped_inner`. -/
def expand_mapped (ops : Ops) (fuel : Nat) (span : Span) (m : MappedData) :
    Except TyError (Option Ty) :=
  expand_mapped_inner ops fuel span m

/-- A panic: `unreachable!`, `unimplemented!` or a failed `unwrap`. -/
inductive Panic
  | unreachable
  | unimplemented
  | unwrapFailed
deriving DecidableEq, Repr

/-- A diagnostic reported to `Storage`. -/
inductive Diag
  | moduleNotFound (span : Span)
  | importFailed (span : Span) (orig : String) (id : String)
deriving DecidableEq, Repr

/-- The analyzer-visible state touched by the import binder: the
resolved-dependency cache (`Analyzer.imports`), the storage side effects
(`store_private_var`, `store_private_type`, `register_type`, `declare_var`),
the unresolved-import set and the reported diagnostics. `declare_var` and the
store operations are external `Storage` collaborators; modelled from the
spec, they append the binding and always succeed. -/
structure AnalyzerState where
  imports : List ((Nat × Nat) × Ty)
  privateVars : List (Nat × String × Ty)
  privateTypes : List (Nat × String × Ty)
  unresolvedImports : List String
  registeredTypes : List (String × Ty)
  declaredVars : List (String × Ty)
  diags : List Diag

/-- External collaborators of the import path: `storage.path` and
`loader.module_id`. -/
structure ImportOps where
  path : Nat → String
  moduleId : String → String → Option Nat

/-- Lookup in the resolved-dependency cache, keyed by
`(consumer, dependency)`. -/
def lookupImports (imports : List ((Nat × Nat) × Ty)) (ctxt dep : Nat) : Option Ty :=
  (imports.find? (fun p => p.1.1 == ctxt && p.1.2 == dep)).map (fun p => p.2)

/-- The `insert_import_info` cache insertion:
`self.imports.entry((ctxt, dep_module_id)).or_insert(ty)` (the Rust function
always returns `Ok(())`). -/
def insert_import_info (st : AnalyzerState) (ctxt depModuleId : Nat) (ty : Ty) : AnalyzerState :=
  match lookupImports st.imports ctxt depModuleId with
  | some _ => st
  | none => { st with imports := st.imports ++ [((ctxt, depModuleId), ty)] }

/-- The `get_imported_items` resolution step: map the specifier to a module
id through the loader and look the pair up in the resolved-dependency cache;
on either failure report `ModuleNotFound` and return the consumer's own id
with `any`. -/
def get_imported_items (ops : ImportOps) (st : AnalyzerState) (ctxt : Nat) (span : Span)
    (dst : String) : AnalyzerState × Nat × Ty :=
  let base := ops.path ctxt
  match ops.moduleId base dst with
  | none => ({ st with diags := st.diags ++ [.moduleNotFound span] }, ctxt, Ty.any span)
  | some depId =>
    match lookupImports st.imports ctxt depId with
    | none => ({ st with diags := st.diags ++ [.moduleNotFound span] }, ctxt, Ty.any span)
    | some data => (st, depId, data)

/-- The `!found_entry` fallback of `handle_import`: record the name as an
unresolved import, register and declare it as `any`, and report
`ImportFailed` only when the import itself had succeeded
(`ctxt != target`). -/
def bindAnyFallback (st : AnalyzerState) (span : Span) (ctxt target : Nat) (orig id : String) :
    AnalyzerState :=
  let st' := { st with
    unresolvedImports := st.unresolvedImports ++ [id],
    registeredTypes := st.registeredTypes ++ [(id, Ty.any span)],
    declaredVars := st.declaredVars ++ [(id, Ty.any span)] }
  if ctxt != target then { st' with diags := st'.diags ++ [.importFailed span orig id] }
  else st'

/-- The `handle_import` binding step for a named or default specifier: when
the import succeeded (`ctxt != target`), bind every matching var and type
export under the local name; when nothing matched (or the import failed),
fall back to an `any` binding. A non-module cache entry is
`unreachable!`. -/
def handle_import (st : AnalyzerState) (span : Span) (ctxt target : Nat) (orig id : String) :
    Except Panic AnalyzerState :=
  if ctxt == target then .ok (bindAnyFallback st span ctxt target orig id)
  else
    match lookupImports st.imports ctxt target with
    | none => .ok (bindAnyFallback st span ctxt target orig id)
    | some data =>
      match data with
      | .module _ _ (.mk vars types _ _) =>
        let varHits := vars.filter (fun p => p.1 == orig)
        let typeHits := types.filter (fun p => p.1 == orig)
        let foundEntry := !varHits.isEmpty || typeHits.any (fun p => !p.2.isEmpty)
        let st' := { st with
          privateVars := st.privateVars ++ varHits.map (fun p => (ctxt, id, p.2)),
          privateTypes := st.privateTypes
            ++ typeHits.flatMap (fun p => p.2.map (fun t => (ctxt, id, t))) }
        if foundEntry then .ok st'
        else .ok (bindAnyFallback st' span ctxt target orig id)
      | _ => .error .unreachable

/-- An `RImportSpecifier`: named (`a` or `a as b`), default, or namespace. -/
inductive ImportSpecifier
  | named (span : Span) (localName : String) (imported : Option String)
  | defaultSpec (span : Span) (localName : String)
  | namespaceSpec (span : Span) (localName : String)
deriving DecidableEq, Repr

/-- An `RImportDecl`: its span, source specifier and specifier list. -/
structure ImportDecl where
  span : Span
  src : String
  specifiers : List ImportSpecifier
deriving DecidableEq, Repr

/-- One specifier of the `validate(RImportDecl)` loop: named and default
specifiers go through `handle_import`; a namespace specifier binds `any` on
the self-import degeneracy (`base == dep`) and the dependency's whole cached
export table otherwise. -/
def validateSpecifier (st : AnalyzerState) (base dep : Nat) (data : Ty) (s : ImportSpecifier) :
    Except Panic AnalyzerState :=
  match s with
  | .named span localName none => handle_import st span base dep localName localName
  | .named span localName (some imported) => handle_import st span base dep imported localName
  | .defaultSpec span localName => handle_import st span base dep "default" localName
  | .namespaceSpec span localName =>
    if base == dep then
      .ok { st with declaredVars := st.declaredVars ++ [(localName, Ty.any span)] }
    else
      .ok { st with declaredVars := st.declaredVars ++ [(localName, data)] }

/-- The `validate(RImportDecl)` validator: resolve the declaration's source
once through `get_imported_items`, then bind every specifier. -/
def validateImportDecl (ops : ImportOps) (st : AnalyzerState) (ctxt : Nat) (d : ImportDecl) :
    Except Panic AnalyzerState :=
  match get_imported_items ops st ctxt d.span d.src with
  | (st', dep, data) => d.specifiers.foldlM (fun acc s => validateSpecifier acc ctxt dep data s) st'

/-- An `RLit` literal expression, as inspected by the dependency scanner. -/
inductive RLit
  | str (span : Span) (value : String)
  | otherLit
deriving DecidableEq, Repr

/-- An `RExpr` expression, reduced to the shapes the scanner dispatches on. -/
inductive RExpr
  | ident (span : Span) (sym : String)
  | lit (l : RLit)
  | otherExpr
deriving DecidableEq, Repr

/-- An `RCallee`. -/
inductive RCallee
  | expr (e : RExpr)
  | importCallee
  | superCallee
deriving DecidableEq, Repr

/-- An `RCallExpr` bare call: callee and arguments. -/
structure RCallExpr where
  span : Span
  callee : RCallee
  args : List RExpr
deriving DecidableEq, Repr

/-- A `DepInfo` unresolved dependency edge. -/
structure DepInfo where
  span : Span
  src : String
deriving DecidableEq, Repr

/-- The mutable state of the `ImportFinder` visitor, together with the
diagnostics channel of the `Storage` it holds (the visitor never reports
to it). -/
structure ImportFinderState where
  curCtxt : Nat
  edges : List (Nat × DepInfo)
  diags : List Diag
deriving DecidableEq, Repr

/-- The `Visit<RCallExpr> for ImportFinder` scanner arm: a call to the
reserved name `require` emits one edge when its first argument is a string
literal; a first argument of any other shape is `unimplemented!` and a
missing argument fails the `unwrap` — panics, not diagnostics. Lazy `map`
then `next()` means arguments past the first are never examined. -/
def visitCallExpr (st : ImportFinderState) (expr : RCallExpr) : Except Panic ImportFinderState :=
  match expr.callee with
  | .expr (.ident _ sym) =>
    if sym == "require" then
      match expr.args.head? with
      | none => .error .unwrapFailed
      | some (.lit (.str _ v)) =>
        .ok { st with edges := st.edges ++ [(st.curCtxt, ⟨expr.span, v⟩)] }
      | some _ => .error .unimplemented
    else .ok st
  | _ => .ok st

/-- The `Visit<RImportDecl> for ImportFinder` scanner arm: every static
declaration of an import emits one edge. -/
def visitImportDeclFinder (st : ImportFinderState) (span : Span) (srcValue : String) :
    ImportFinderState :=
  { st with edges := st.edges ++ [(st.curCtxt, ⟨span, srcValue⟩)] }

/-- The `Visit<RNamedExport> for ImportFinder` scanner arm: a re-export
emits an edge only when it names a source. -/
def visitNamedExportFinder (st : ImportFinderState) (span : Span) (src : Option String) :
    ImportFinderState :=
  match src with
  | none => st
  | some v => { st with edges := st.edges ++ [(st.curCtxt, ⟨span, v⟩)] }

/-- The in-process `BuiltIn` value produced by merging the standard-library
modules; its contents are irrelevant to the cache discipline, so a token
stands for it. -/
structure BuiltInTbl where
  token : Nat
deriving DecidableEq, Repr

/-- The possible outcomes of the builtin-cache read in `from_ts_libs`: the
cache file does not exist, `std::fs::read` fails, `rmp_serde` decoding fails,
or a builtin is recovered. -/
inductive CacheReadOutcome
  | noFile
  | readFailed
  | decodeFailed
  | ok (b : BuiltInTbl)
deriving DecidableEq, Repr

/-- The environment of one `from_ts_libs` run: what the cache read yields,
what recomputation from the library modules produces
(`from_module_items`), and whether each step of the cache write path
(serialization, directory creation, file write) succeeds. -/
structure BuiltinCacheEnv where
  cacheRead : CacheReadOutcome
  computed : BuiltInTbl
  encodeOk : Bool
  createDirOk : Bool
  writeOk : Bool
deriving DecidableEq, Repr

/-- The observable result of `from_ts_libs`: a builtin together with the
diagnostics reported and the number of log warnings emitted, or a panic
aborting the computation. -/
inductive FromTsLibsResult
  | ok (b : BuiltInTbl) (diags : List Diag) (warns : Nat)
  | panicked
deriving DecidableEq, Repr

/-- The recompute-and-write tail of `from_ts_libs`: the builtin is rebuilt
from the library modules, then serialized, the cache directory created and
the blob written — each failure on this write path is an
`unwrap_or_else(panic!)`. -/
def recomputeAndWriteBuiltin (env : BuiltinCacheEnv) (warns : Nat) : FromTsLibsResult :=
  if !env.encodeOk then .panicked
  else if !env.createDirOk then .panicked
  else if !env.writeOk then .panicked
  else .ok env.computed [] warns

/-- The `BuiltInGen::from_ts_libs` cache discipline (`env.rs`): a cache hit
returns the decoded builtin; a missing file skips the read; a read or decode
failure logs a warning; in all three non-hit cases the builtin is recomputed
and written back, panicking when any step of the write path fails. No path
reports a diagnostic. -/
def from_ts_libs (env : BuiltinCacheEnv) : FromTsLibsResult :=
  match env.cacheRead with
  | .ok b => .ok b [] 0
  | .noFile => recomputeAndWriteBuiltin env 0
  | .readFailed => recomputeAndWriteBuiltin env 1
  | .decodeFailed => recomputeAndWriteBuiltin env 1

/-- The `any`-binding outcome of one specifier when the declaration's module
did not resolve: named and default specifiers take the unresolved-import
fallback without `ImportFailed`; a namespace specifier only declares `any`. -/
def bindSpecifierAny (st : AnalyzerState) (s : ImportSpecifier) : AnalyzerState :=
  match s with
  | .named span localName _ =>
    { st with
      unresolvedImports := st.unresolvedImports ++ [localName],
      registeredTypes := st.registeredTypes ++ [(localName, Ty.any span)],
      declaredVars := st.declaredVars ++ [(localName, Ty.any span)] }
  | .defaultSpec span localName =>
    { st with
      unresolvedImports := st.unresolvedImports ++ [localName],
      registeredTypes := st.registeredTypes ++ [(localName, Ty.any span)],
      declaredVars := st.declaredVars ++ [(localName, Ty.any span)] }
  | .namespaceSpec span localName =>
    { st with declaredVars := st.declaredVars ++ [(localName, Ty.any span)] }

/-- A successful `find?` on a list prefix survives appending. -/
theorem find?_append_of_some {α : Type} (l l' : List α) (p : α → Bool) (x : α)
    (h : l.find? p = some x) : (l ++ l').find? p = some x := by
  induction l with
  | nil => simp [List.find?] at h
  | cons a as ih =>
    rw [List.cons_append]
    cases hpa : p a with
    | true =>
      rw [List.find?_cons_of_pos _ hpa] at h ⊢
      exact h
    | false =>
      rw [List.find?_cons_of_neg _ (by simp [hpa])] at h ⊢
      exact ih h

/-- Cache lookups survive any later `insert_import_info`, for any pair. -/
theorem lookupImports_insert_preserved (st : AnalyzerState) (c d c' d' : Nat) (ty ty0 : Ty)
    (h : lookupImports st.imports c d = some ty0) :
    lookupImports (insert_import_info st c' d' ty).imports c d = some ty0 := by
  unfold insert_import_info
  cases hl : lookupImports st.imports c' d' with
  | some _ => exact h
  | none =>
    unfold lookupImports at h ⊢
    cases hf : st.imports.find? (fun p => p.1.1 == c && p.1.2 == d) with
    | none => rw [hf] at h; simp at h
    | some q =>
      rw [hf] at h
      simp only []
      rw [find?_append_of_some _ _ _ _ hf]
      exact h

/-- Claim C3: the resolved-dependency cache is first-write-wins: an insertion
for a pair that already has an entry is a no-op on the whole state, and after
any sequence of further insertions the stored export table for that pair is
unchanged. -/
theorem c3_insert_import_info_first_write_wins :
    (∀ (st : AnalyzerState) (c d : Nat) (ty ty0 : Ty),
        lookupImports st.imports c d = some ty0 → insert_import_info st c d ty = st)
    ∧ (∀ (st : AnalyzerState) (seq : List ((Nat × Nat) × Ty)) (c d : Nat) (ty0 : Ty),
        lookupImports st.imports c d = some ty0 →
        lookupImports
          ((seq.foldl (fun s e => insert_import_info s e.1.1 e.1.2 e.2) st).imports) c d
          = some ty0) := by
  constructor
  · intro st c d ty ty0 h
    unfold insert_import_info
    rw [h]
  · intro st seq c d ty0 h
    induction seq generalizing st with
    | nil => exact h
    | cons e es ih =>
      exact ih _ (lookupImports_insert_preserved st c d e.1.1 e.1.2 e.2 ty0 h)

/-- Witness for C3 at a concrete cache state and insertion sequence. -/
theorem c3_insert_import_info_first_write_wins_witness :
    lookupImports
      (([((1, 2), Ty.tuple 5), ((3, 4), Ty.tuple 6)].foldl
          (fun s e => insert_import_info s e.1.1 e.1.2 e.2)
          { imports := [((1, 2), Ty.any 0)], privateVars := [], privateTypes := [],
            unresolvedImports := [], registeredTypes := [], declaredVars := [],
            diags := [] }).imports) 1 2
      = some (Ty.any 0) :=
  c3_insert_import_info_first_write_wins.2 _ _ 1 2 (Ty.any 0) rfl

/-- Claim C1 counterexample: a builtin-cache write failure aborts the
computation — with the cache file absent (a read failure of the "missing"
kind) and a failing `std::fs::write`, `from_ts_libs` panics instead of
returning the recomputed builtin, so cache I/O failure is not always
non-fatal. -/
theorem c1_counterexample_write_failure_aborts :
    from_ts_libs
      { cacheRead := .noFile, computed := ⟨0⟩, encodeOk := Bool.true,
        createDirOk := Bool.true, writeOk := Bool.false }
      = .panicked := rfl

/-- Claim C1 (amended): a cache read failure of any kind (missing file,
unreadable file, undeserializable blob) is non-fatal and triggers
recomputation plus a rewrite of the cache, and no path of `from_ts_libs`
reports a diagnostic; but a failure on the cache write path (serialization,
directory creation, or the file write) aborts the computation with a panic
rather than being absorbed. -/
theorem c1_cache_read_failures_nonfatal_write_failures_panic :
    (∀ env : BuiltinCacheEnv,
        (env.cacheRead = .noFile ∨ env.cacheRead = .readFailed
          ∨ env.cacheRead = .decodeFailed) →
        env.encodeOk = Bool.true → env.createDirOk = Bool.true → env.writeOk = Bool.true →
        ∃ w, from_ts_libs env = .ok env.computed [] w)
    ∧ (∀ (env : BuiltinCacheEnv) (b : BuiltInTbl) (ds : List Diag) (w : Nat),
        from_ts_libs env = .ok b ds w → ds = [])
    ∧ (∀ env : BuiltinCacheEnv,
        (env.cacheRead = .noFile ∨ env.cacheRead = .readFailed
          ∨ env.cacheRead = .decodeFailed) →
        (env.encodeOk = Bool.false ∨ env.createDirOk = Bool.false
          ∨ env.writeOk = Bool.false) →
        from_ts_libs env = .panicked)
    ∧ (∀ (env : BuiltinCacheEnv) (b : BuiltInTbl),
        env.cacheRead = .ok b → from_ts_libs env = .ok b [] 0) := by
  refine ⟨?_, ?_, ?_, ?_⟩
  · intro env h he hc hw
    rcases h with h | h | h
    · exact ⟨0, by simp [from_ts_libs, recomputeAndWriteBuiltin, h, he, hc, hw]⟩
    · exact ⟨1, by simp [from_ts_libs, recomputeAndWriteBuiltin, h, he, hc, hw]⟩
    · exact ⟨1, by simp [from_ts_libs, recomputeAndWriteBuiltin, h, he, hc, hw]⟩
  · intro env b ds w h
    rcases env with ⟨cr, comp, e, c, wo⟩
    cases cr <;> cases e <;> cases c <;> cases wo <;>
      simp_all [from_ts_libs, recomputeAndWriteBuiltin]
  · intro env h hw
    rcases h with h | h | h <;> rcases hw with hw | hw | hw <;>
      simp [from_ts_libs, recomputeAndWriteBuiltin, h, hw]
  · intro env b h
    simp [from_ts_libs, h]

/-- Witness for C1 at a concrete environment with a corrupt cache blob. -/
theorem c1_cache_read_failures_nonfatal_write_failures_panic_witness :
    ∃ w, from_ts_libs
        { cacheRead := .decodeFailed, computed := ⟨7⟩, encodeOk := Bool.true,
          createDirOk := Bool.true, writeOk := Bool.true }
        = .ok ⟨7⟩ [] w :=
  c1_cache_read_failures_nonfatal_write_failures_panic.1 _ (Or.inr (Or.inr rfl)) rfl rfl rfl

/-- Claim C9: for a bare call to the reserved name `require`, the scanner
emits exactly one dependency edge when the first argument is a string
literal; any other first-argument shape (or a missing argument) panics as an
unimplemented case, and no run of the scanner arm ever reports a
diagnostic. -/
theorem c9_require_scanner :
    (∀ (st : ImportFinderState) (e : RCallExpr) (csp lsp : Span) (v : String),
        e.callee = .expr (.ident csp "require") →
        e.args.head? = some (.lit (.str lsp v)) →
        visitCallExpr st e
          = .ok { st with edges := st.edges ++ [(st.curCtxt, ⟨e.span, v⟩)] })
    ∧ (∀ (st : ImportFinderState) (e : RCallExpr) (csp : Span),
        e.callee = .expr (.ident csp "require") →
        (∀ (lsp : Span) (v : String), e.args.head? ≠ some (.lit (.str lsp v))) →
        ∃ p, visitCallExpr st e = .error p)
    ∧ (∀ (st st' : ImportFinderState) (e : RCallExpr),
        visitCallExpr st e = .ok st' → st'.diags = st.diags) := by
  refine ⟨?_, ?_, ?_⟩
  · intro st e csp lsp v hc ha
    simp [visitCallExpr, hc, ha]
  · intro st e csp hc ha
    cases harg : e.args.head? with
    | none => exact ⟨.unwrapFailed, by simp [visitCallExpr, hc, harg]⟩
    | some a =>
      cases a with
      | ident s sym => exact ⟨.unimplemented, by simp [visitCallExpr, hc, harg]⟩
      | otherExpr => exact ⟨.unimplemented, by simp [visitCallExpr, hc, harg]⟩
      | lit l =>
        cases l with
        | str s v => exact absurd harg (ha s v)
        | otherLit => exact ⟨.unimplemented, by simp [visitCallExpr, hc, harg]⟩
  · intro st st' e h
    unfold visitCallExpr at h
    rcases e with ⟨sp, callee, args⟩
    cases callee with
    | importCallee => cases h; rfl
    | superCallee => cases h; rfl
    | expr ce =>
      cases ce with
      | lit _ => cases h; rfl
      | otherExpr => cases h; rfl
      | ident s sym =>
        by_cases hsym : (sym == "require") = Bool.true
        · simp only [hsym, if_pos] at h
          cases harg : args.head? with
          | none => rw [harg] at h; cases h
          | some a =>
            rw [harg] at h
            cases a with
            | ident _ _ => cases h
            | otherExpr => cases h
            | lit l =>
              cases l with
              | str _ _ => cases h; rfl
              | otherLit => cases h
        · simp only [Bool.not_eq_true] at hsym
          simp only [hsym] at h
          cases h; rfl

/-- Witness for C9 at a concrete `require` call with a string argument. -/
theorem c9_require_scanner_witness :
    visitCallExpr ⟨5, [], []⟩ ⟨7, .expr (.ident 1 "require"), [.lit (.str 2 "foo")]⟩
      = .ok ⟨5, [(5, ⟨7, "foo"⟩)], []⟩ :=
  c9_require_scanner.1 ⟨5, [], []⟩ ⟨7, .expr (.ident 1 "require"), [.lit (.str 2 "foo")]⟩
    1 2 "foo" rfl rfl

/-- A specifier validated against the consumer itself (the shape of every
failed import, and of a genuine self-import) takes the pure `any` fallback. -/
theorem validateSpecifier_self (st : AnalyzerState) (ctxt : Nat) (data : Ty)
    (s : ImportSpecifier) :
    validateSpecifier st ctxt ctxt data s = .ok (bindSpecifierAny st s) := by
  cases s with
  | named span localName imported =>
    cases imported <;>
      simp [validateSpecifier, handle_import, bindAnyFallback, bindSpecifierAny]
  | defaultSpec span localName =>
    simp [validateSpecifier, handle_import, bindAnyFallback, bindSpecifierAny]
  | namespaceSpec span localName =>
    simp [validateSpecifier, bindSpecifierAny]

/-- The specifier loop against the consumer itself never fails and folds the
`any` fallback over the declaration. -/
theorem foldlM_validateSpecifier_self (ctxt : Nat) (data : Ty) (specs : List ImportSpecifier)
    (st : AnalyzerState) :
    specs.foldlM (fun acc s => validateSpecifier acc ctxt ctxt data s) st
      = .ok (specs.foldl bindSpecifierAny st) := by
  induction specs generalizing st with
  | nil => rfl
  | cons s ss ih =>
    rw [List.foldlM_cons, validateSpecifier_self, List.foldl_cons]
    exact ih _

/-- Claim C4: a named or default specifier whose name is absent from the
resolved dependency's export table binds the local name to `any`, registers
it as an unresolved import and reports `ImportFailed` — but only when the
dependency resolved to a module other than the consumer; when resolution
failed (the consumer's own id comes back), every specifier of the
declaration binds `any` and the single `ModuleNotFound` is the only new
diagnostic. -/
theorem c4_missing_export_name_binds_any :
    (∀ (st : AnalyzerState) (span msp : Span) (ctxt target : Nat) (orig id mname : String)
        (vars : List (String × Ty)) (types : List (String × List Ty))
        (pv : List (String × Ty)) (pt : List (String × List Ty)),
        ctxt ≠ target →
        lookupImports st.imports ctxt target = some (.module msp mname (.mk vars types pv pt)) →
        vars.filter (fun p => p.1 == orig) = [] →
        types.filter (fun p => p.1 == orig) = [] →
        handle_import st span ctxt target orig id
          = .ok { st with
              unresolvedImports := st.unresolvedImports ++ [id],
              registeredTypes := st.registeredTypes ++ [(id, Ty.any span)],
              declaredVars := st.declaredVars ++ [(id, Ty.any span)],
              diags := st.diags ++ [.importFailed span orig id] })
    ∧ (∀ (st st' : AnalyzerState) (span : Span) (ctxt : Nat) (orig id : String),
        handle_import st span ctxt ctxt orig id = .ok st' → st'.diags = st.diags)
    ∧ (∀ (ops : ImportOps) (st : AnalyzerState) (ctxt : Nat) (d : ImportDecl),
        ops.moduleId (ops.path ctxt) d.src = none →
        validateImportDecl ops st ctxt d
          = .ok (d.specifiers.foldl bindSpecifierAny
              { st with diags := st.diags ++ [.moduleNotFound d.span] })) := by
  refine ⟨?_, ?_, ?_⟩
  · intro st span msp ctxt target orig id mname vars types pv pt hne hl hv ht
    have hne' : (ctxt == target) = Bool.false := by simp [hne]
    simp [handle_import, hne', hl, hv, ht, bindAnyFallback, hne]
  · intro st st' span ctxt orig id h
    simp only [handle_import, beq_self_eq_true, if_pos] at h
    cases h
    simp [bindAnyFallback]
  · intro ops st ctxt d h
    simp only [validateImportDecl, get_imported_items, h]
    exact foldlM_validateSpecifier_self ctxt (Ty.any d.span) d.specifiers _

/-- Witness for C4: a one-specifier declaration from an unresolvable module
binds `any` and reports exactly one `ModuleNotFound`. -/
theorem c4_missing_export_name_binds_any_witness :
    validateImportDecl ⟨fun _ => "", fun _ _ => none⟩
      { imports := [], privateVars := [], privateTypes := [], unresolvedImports := [],
        registeredTypes := [], declaredVars := [], diags := [] }
      3 ⟨11, "m", [.named 12 "x" none, .namespaceSpec 13 "ns"]⟩
      = .ok { imports := [], privateVars := [], privateTypes := [],
              unresolvedImports := ["x"], registeredTypes := [("x", Ty.any 12)],
              declaredVars := [("x", Ty.any 12), ("ns", Ty.any 13)],
              diags := [.moduleNotFound 11] } :=
  c4_missing_export_name_binds_any.2.2 ⟨fun _ => "", fun _ _ => none⟩ _ 3
    ⟨11, "m", [.named 12 "x" none, .namespaceSpec 13 "ns"]⟩ rfl

/-- Claim C5: a namespace specifier binds `any` exactly when the consumer and
the resolved dependency coincide (the self-import degeneracy), and otherwise
binds the dependency's whole cached export table — which is exactly the
value `get_imported_items` hands over from the resolved-dependency cache. -/
theorem c5_namespace_import_binding :
    (∀ (st : AnalyzerState) (base : Nat) (data : Ty) (span : Span) (localName : String),
        validateSpecifier st base base data (.namespaceSpec span localName)
          = .ok { st with declaredVars := st.declaredVars ++ [(localName, Ty.any span)] })
    ∧ (∀ (st : AnalyzerState) (base dep : Nat) (data : Ty) (span : Span) (localName : String),
        base ≠ dep →
        validateSpecifier st base dep data (.namespaceSpec span localName)
          = .ok { st with declaredVars := st.declaredVars ++ [(localName, data)] })
    ∧ (∀ (ops : ImportOps) (st : AnalyzerState) (ctxt : Nat) (span : Span) (dst : String)
        (depId : Nat) (table : Ty),
        ops.moduleId (ops.path ctxt) dst = some depId →
        lookupImports st.imports ctxt depId = some table →
        get_imported_items ops st ctxt span dst = (st, depId, table)) := by
  refine ⟨?_, ?_, ?_⟩
  · intro st base data span localName
    simp [validateSpecifier]
  · intro st base dep data span localName h
    have h' : (base == dep) = Bool.false := by simp [h]
    simp [validateSpecifier, h']
  · intro ops st ctxt span dst depId table h1 h2
    simp [get_imported_items, h1, h2]

/-- Witness for C5: a namespace import from a distinct resolved module binds
the cached module-shaped export table. -/
theorem c5_namespace_import_binding_witness :
    validateSpecifier
      { imports := [((1, 2), Ty.module 0 "m" (.mk [("v", Ty.tuple 4)] [] [] []))],
        privateVars := [], privateTypes := [], unresolvedImports := [],
        registeredTypes := [], declaredVars := [], diags := [] }
      1 2 (Ty.module 0 "m" (.mk [("v", Ty.tuple 4)] [] [] [])) (.namespaceSpec 9 "ns")
      = .ok { imports := [((1, 2), Ty.module 0 "m" (.mk [("v", Ty.tuple 4)] [] [] []))],
              privateVars := [], privateTypes := [], unresolvedImports := [],
              registeredTypes := [],
              declaredVars := [("ns", Ty.module 0 "m" (.mk [("v", Ty.tuple 4)] [] [] []))],
              diags := [] } :=
  c5_namespace_import_binding.2.1 _ 1 2 _ 9 "ns" (by decide)

/-- Claim C10: both failure modes of `get_imported_items` — the loader cannot
map the specifier, or the resolved-dependency cache has no entry — report
`ModuleNotFound` and return the consumer's own id with `any`; consequently
the specifier-binding paths see consumer = dependency and treat the failed
edge like a self-import: `handle_import` binds `any` with no `ImportFailed`,
and a namespace specifier binds `any`. -/
theorem c10_get_imported_items_failure :
    (∀ (ops : ImportOps) (st : AnalyzerState) (ctxt : Nat) (span : Span) (dst : String),
        ops.moduleId (ops.path ctxt) dst = none →
        get_imported_items ops st ctxt span dst
          = ({ st with diags := st.diags ++ [.moduleNotFound span] }, ctxt, Ty.any span))
    ∧ (∀ (ops : ImportOps) (st : AnalyzerState) (ctxt : Nat) (span : Span) (dst : String)
        (depId : Nat),
        ops.moduleId (ops.path ctxt) dst = some depId →
        lookupImports st.imports ctxt depId = none →
        get_imported_items ops st ctxt span dst
          = ({ st with diags := st.diags ++ [.moduleNotFound span] }, ctxt, Ty.any span))
    ∧ (∀ (st : AnalyzerState) (span : Span) (ctxt : Nat) (orig id : String),
        handle_import st span ctxt ctxt orig id
          = .ok { st with
              unresolvedImports := st.unresolvedImports ++ [id],
              registeredTypes := st.registeredTypes ++ [(id, Ty.any span)],
              declaredVars := st.declaredVars ++ [(id, Ty.any span)] })
    ∧ (∀ (st : AnalyzerState) (dep : Nat) (data : Ty) (span : Span) (localName : String),
        validateSpecifier st dep dep data (.namespaceSpec span localName)
          = .ok { st with declaredVars := st.declaredVars ++ [(localName, Ty.any span)] }) := by
  refine ⟨?_, ?_, ?_, ?_⟩
  · intro ops st ctxt span dst h
    simp [get_imported_items, h]
  · intro ops st ctxt span dst depId h1 h2
    simp [get_imported_items, h1, h2]
  · intro st span ctxt orig id
    simp [handle_import, bindAnyFallback]
  · intro st dep data span localName
    simp [validateSpecifier]

/-- Witness for C10 at a concrete loader that cannot resolve the specifier. -/
theorem c10_get_imported_items_failure_witness :
    get_imported_items ⟨fun _ => "base", fun _ _ => none⟩
      { imports := [], privateVars := [], privateTypes := [], unresolvedImports := [],
        registeredTypes := [], declaredVars := [], diags := [] }
      4 21 "missing"
      = ({ imports := [], privateVars := [], privateTypes := [], unresolvedImports := [],
           registeredTypes := [], declaredVars := [], diags := [.moduleNotFound 21] },
         4, Ty.any 21) :=
  c10_get_imported_items_failure.1 ⟨fun _ => "base", fun _ _ => none⟩ _ 4 21 "missing" rfl

/-- Claim C6: a mapped type whose constraint is exactly the keyword `string`
or the keyword `number` expands to a single-member type literal holding one
index signature keyed by that primitive, valued by the template (or with no
value when there is none), whose readonly flag is true exactly when the
readonly tri-state is "true" or "plus". -/
theorem c6_primitive_constraint_index_signature :
    ∀ (ops : Ops) (fuel : Nat) (span csp : Span) (m : MappedData) (k : KeywordKind),
      (k = .string ∨ k = .number) →
      m.constraint = some (.keyword csp k) →
      ∃ ro : Bool,
        expand_mapped ops fuel span m
          = .ok (some (.typeLit m.span
              [.index m.span [FnParam.mk span Bool.true "___mapped" (.keyword csp k)]
                m.template ro Bool.false]))
        ∧ (ro = Bool.true ↔ (m.readonly = some .true ∨ m.readonly = some .plus)) := by
  intro ops fuel span csp m k hk hc
  refine ⟨readonlyFromTriState m.readonly, ?_, ?_⟩
  · rcases hk with hk | hk <;> subst hk <;>
      simp [expand_mapped, expand_mapped_inner, hc, Ty.isKwd]
  · rcases m.readonly with _ | tpm
    · simp [readonlyFromTriState]
    · cases tpm <;> simp [readonlyFromTriState]

/-- Witness for C6 at a concrete `{readonly [K in string]: boolean}` with the
`minus` readonly tri-state, whose index signature comes out non-readonly. -/
theorem c6_primitive_constraint_index_signature_witness :
    ∃ ro : Bool,
      expand_mapped specOps 0 0
        { span := 9, readonly := some .minus, optional := none, paramName := "K",
          constraint := some (.keyword 1 .string), template := some (.keyword 2 .boolean) }
        = .ok (some (.typeLit 9
            [.index 9 [FnParam.mk 0 Bool.true "___mapped" (.keyword 1 .string)]
              (some (.keyword 2 .boolean)) ro Bool.false]))
      ∧ (ro = Bool.true ↔ ((some TruePlusMinus.minus : Option TruePlusMinus) = some .true
          ∨ (some TruePlusMinus.minus : Option TruePlusMinus) = some .plus)) :=
  c6_primitive_constraint_index_signature specOps 0 0 1
    { span := 9, readonly := some .minus, optional := none, paramName := "K",
      constraint := some (.keyword 1 .string), template := some (.keyword 2 .boolean) }
    .string (Or.inl rfl) rfl

/-- A type accepted by `as_array_without_readonly` is an array, possibly
under a readonly operator. -/
theorem asArrayWithoutReadonly_shape (ko : Ty) (aspan : Span) (elem : Ty)
    (h : ko.asArrayWithoutReadonly = some (aspan, elem)) :
    ko = .array aspan elem ∨ ∃ osp, ko = .operator osp .readonly (.array aspan elem) := by
  unfold Ty.asArrayWithoutReadonly at h
  split at h
  · simp only [Option.some.injEq, Prod.mk.injEq] at h
    exact Or.inl (by rw [h.1, h.2])
  · next s _ _ =>
    simp only [Option.some.injEq, Prod.mk.injEq] at h
    exact Or.inr ⟨s, by rw [h.1, h.2]⟩
  · cases h

/-- Claim C7: a mapped type `[K in keyof T]` whose normalized operand `T` is
an array (ignoring a readonly qualifier) expands to an array whose element
type is the template — or `any` without a template — never to a type
literal; no optional/readonly flag survives on the result. -/
theorem c7_homomorphic_array_rule :
    ∀ (fuel : Nat) (span osp aspan : Span) (m : MappedData) (ko elem : Ty),
      m.constraint = some (.operator osp .keyOf ko) →
      ko.asArrayWithoutReadonly = some (aspan, elem) →
      expand_mapped specOps (fuel + 1) span m
        = .ok (some (.array span (m.template.getD (Ty.any span)))) := by
  intro fuel span osp aspan m ko elem hc hko
  rcases asArrayWithoutReadonly_shape ko aspan elem hko with h | ⟨osp', h⟩ <;> subst h <;>
    cases htpl : m.template <;>
      simp [expand_mapped, expand_mapped_inner, hc, expand_mapped_type_with_keyof, specOps,
        Ty.asArrayWithoutReadonly, htpl]

/-- Witness for C7 at the concrete `{[K in keyof (string[])]: boolean}`,
which yields an array of the template, not a type literal. -/
theorem c7_homomorphic_array_rule_witness :
    expand_mapped specOps 1 0
      { span := 9, readonly := none, optional := none, paramName := "K",
        constraint := some (.operator 1 .keyOf (.array 2 (.keyword 3 .string))),
        template := some (.keyword 4 .boolean) }
      = .ok (some (.array 0 (.keyword 4 .boolean))) :=
  c7_homomorphic_array_rule 0 0 1 2
    { span := 9, readonly := none, optional := none, paramName := "K",
      constraint := some (.operator 1 .keyOf (.array 2 (.keyword 3 .string))),
      template := some (.keyword 4 .boolean) }
    (.array 2 (.keyword 3 .string)) (.keyword 3 .string) rfl rfl

/-- Claim C2: the intersection arm of property-key extraction first extracts
every operand; if all operands fail the whole extraction fails; otherwise the
result starts from the first operand's keys, keeps only those present
(span-ignored structural equality) in every other operand that succeeded (a
failed operand imposes no constraint), deduplicates, and an empty retained
set is a failure (`none`), never an empty success — in particular the key set
of an intersection of two type literals with disjoint keys is a failure. -/
theorem c2_intersection_key_extraction :
    (∀ (ops : Ops) (fuel : Nat) (span sp : Span) (ty0 : Ty) (ts : List Ty)
        (rs : List (Option (List PropertyName))),
        ops.normalize span ty0 { normalizeKeywords := Bool.true } = .ok (.intersection sp ts) →
        exceptMapList (get_property_names_for_mapped_type ops fuel span) ts = .ok rs →
        get_property_names_for_mapped_type ops (fuel + 1) span ty0
          = .ok (intersectPropertyNames rs))
    ∧ (∀ rs : List (Option (List PropertyName)),
        rs.all Option.isNone → intersectPropertyNames rs = none)
    ∧ (∀ (ks : List PropertyName) (rs : List (Option (List PropertyName))),
        intersectPropertyNames (some ks :: rs)
          = (let retained := ks.filter (fun item =>
               rs.all (fun set => set.isNone || (set.getD []).any (fun x => x.typeEq item)));
             let result := retained.foldl dedupPushPropertyName [];
             if result.isEmpty then none else some result))
    ∧ (∀ (rs : List (Option (List PropertyName))) (r : List PropertyName),
        intersectPropertyNames rs = some r → r ≠ [])
    ∧ (get_property_names_for_mapped_type specOps 2 0
        (.intersection 0
          [.typeLit 1 [.property 2 Bool.false (.normal 2 "a") Bool.false none],
           .typeLit 3 [.property 4 Bool.false (.normal 4 "b") Bool.false none]])
        = .ok none) := by
  refine ⟨?_, ?_, ?_, ?_, ?_⟩
  · intro ops fuel span sp ty0 ts rs h1 h2
    simp only [get_property_names_for_mapped_type, h1, h2, Ty.isAny, Bool.false_eq_true,
      if_false]
  · intro rs h
    cases rs with
    | nil => rfl
    | cons r rs' => simp [intersectPropertyNames, h]
  · intro ks rs
    simp [intersectPropertyNames]
  · intro rs r h
    simp only [intersectPropertyNames] at h
    split at h
    · cases h
    · split at h
      · cases h
      · split at h
        · cases h
        · next hne =>
          cases h
          simpa using hne
  · rfl

/-- Witness for C2: the intersection equation applied at two concrete
overlapping type literals, whose shared key survives extraction. -/
theorem c2_intersection_key_extraction_witness :
    get_property_names_for_mapped_type specOps 2 0
      (.intersection 0
        [.typeLit 1 [.property 2 Bool.false (.normal 2 "a") Bool.false none,
                     .property 5 Bool.false (.normal 5 "c") Bool.false none],
         .typeLit 3 [.property 4 Bool.false (.normal 4 "c") Bool.false none]])
      = .ok (intersectPropertyNames
          [some [.key (.normal 2 "a"), .key (.normal 5 "c")],
           some [.key (.normal 4 "c")]]) :=
  c2_intersection_key_extraction.1 specOps 1 0 0 _
    [.typeLit 1 [.property 2 Bool.false (.normal 2 "a") Bool.false none,
                 .property 5 Bool.false (.normal 5 "c") Bool.false none],
     .typeLit 3 [.property 4 Bool.false (.normal 4 "c") Bool.false none]]
    _ rfl rfl

/-- The member that the literal-key branch builds for one key, with the
substitution oracle instantiated to structural substitution. -/
def mappedPropertyFor (m : MappedData) (key : Key) : TypeElement :=
  applyMappedFlags
    (.property key.span Bool.false key Bool.false
      (m.template.map (fun mty => substTy [(m.paramName, key.ty)] mty)))
    m.optional m.readonly

/-- Under the concrete substitution oracle, `mkMappedProperty` always
succeeds and yields `mappedPropertyFor`. -/
theorem mkMappedProperty_specOps (m : MappedData) (key : Key) :
    mkMappedProperty specOps m key = .ok (mappedPropertyFor m key) := by
  cases htpl : m.template <;>
    simp [mkMappedProperty, expand_key_in_mapped, specOps, htpl, mappedPropertyFor]

/-- Mapping the member builder over a key list succeeds pointwise. -/
theorem exceptMapList_mkMappedProperty_specOps (m : MappedData) (keys : List Key) :
    exceptMapList (mkMappedProperty specOps m) keys = .ok (keys.map (mappedPropertyFor m)) := by
  induction keys with
  | nil => rfl
  | cons k ks ih => simp only [exceptMapList, mkMappedProperty_specOps, ih, List.map_cons]

/-- The union loop of `convert_type_to_keys` over string-literal types
collects one normal key per literal, in order. -/
theorem convertKeysUnionLoop_strLits (fuel : Nat) (span : Span)
    (lits : List (Span × Span × String)) (acc : List Key) :
    convertKeysUnionLoop (convert_type_to_keys specOps (fuel + 1) span)
      (lits.map (fun t => Ty.lit t.1 (.str t.2.1 t.2.2))) acc
      = .ok (some (acc ++ lits.map (fun t => Key.normal t.2.1 t.2.2))) := by
  induction lits generalizing acc with
  | nil => simp [convertKeysUnionLoop]
  | cons a as ih =>
    have hlit : convert_type_to_keys specOps (fuel + 1) span (Ty.lit a.1 (.str a.2.1 a.2.2))
        = .ok (some [Key.normal a.2.1 a.2.2]) := rfl
    simp only [List.map_cons, convertKeysUnionLoop, hlit]
    rw [ih]
    simp

/-- A union of string-literal types converts to their keys, in order. -/
theorem convertKeys_strLit_union (fuel : Nat) (span usp : Span)
    (lits : List (Span × Span × String)) :
    convert_type_to_keys specOps (fuel + 2) span
      (.union usp (lits.map (fun t => Ty.lit t.1 (.str t.2.1 t.2.2))))
      = .ok (some (lits.map (fun t => Key.normal t.2.1 t.2.2))) := by
  rw [show convert_type_to_keys specOps (fuel + 2) span
      (.union usp (lits.map (fun t => Ty.lit t.1 (.str t.2.1 t.2.2))))
      = convertKeysUnionLoop (convert_type_to_keys specOps (fuel + 1) span)
          (lits.map (fun t => Ty.lit t.1 (.str t.2.1 t.2.2))) [] from rfl]
  rw [convertKeysUnionLoop_strLits fuel span lits []]
  rfl

/-- The general expansion of a mapped type over a union of string-literal
keys: one property per literal, in the union's order. -/
theorem expandMapped_strLit_union (fuel : Nat) (span usp : Span) (m : MappedData)
    (lits : List (Span × Span × String))
    (hc : m.constraint = some (.union usp (lits.map (fun t => Ty.lit t.1 (.str t.2.1 t.2.2))))) :
    expand_mapped specOps (fuel + 2) span m
      = .ok (some (.typeLit m.span
          (lits.map (fun t => mappedPropertyFor m (Key.normal t.2.1 t.2.2))))) := by
  have hkeys := convertKeys_strLit_union fuel span usp lits
  have hkwd1 : Ty.isKwd .string
      (.union usp (lits.map (fun t => Ty.lit t.1 (.str t.2.1 t.2.2)))) = Bool.false := rfl
  have hkwd2 : Ty.isKwd .number
      (.union usp (lits.map (fun t => Ty.lit t.1 (.str t.2.1 t.2.2)))) = Bool.false := rfl
  simp only [expand_mapped, expand_mapped_inner, hc, hkwd1, hkwd2, Bool.or_self,
    Bool.false_eq_true, if_false, hkeys, exceptMapList_mkMappedProperty_specOps,
    List.map_map]
  rfl

/-- The union loop fails as a whole as soon as one operand fails, whatever
keys the earlier operands produced. -/
theorem convertKeysUnionLoop_none (recur : Ty → Except TyError (Option (List Key)))
    (pre : List Ty) (t : Ty) (post : List Ty)
    (hpre : ∀ u ∈ pre, ∃ ks, recur u = .ok (some ks)) (ht : recur t = .ok none) :
    ∀ acc, convertKeysUnionLoop recur (pre ++ t :: post) acc = .ok none := by
  induction pre with
  | nil =>
    intro acc
    simp only [List.nil_append, convertKeysUnionLoop, ht]
  | cons u us ih =>
    intro acc
    obtain ⟨ks, hks⟩ := hpre u (List.mem_cons_self u us)
    rw [List.cons_append]
    simp only [convertKeysUnionLoop, hks]
    exact ih (fun v hv => hpre v (List.mem_cons_of_mem u hv)) _

/-- Claim C8: a mapped type whose constraint is a union of string-literal
types expands to a type literal with exactly one property per literal, in the
union's left-to-right order and nothing else; each member is a property keyed
by its literal; a union branch that fails literal-key conversion fails the
whole conversion; and `[K in ("a" | "b")] : number` concretely expands to
`a : number` then `b : number`. -/
theorem c8_union_of_string_literal_keys :
    (∀ (fuel : Nat) (span usp : Span) (m : MappedData) (lits : List (Span × Span × String)),
        m.constraint
          = some (.union usp (lits.map (fun t => Ty.lit t.1 (.str t.2.1 t.2.2)))) →
        expand_mapped specOps (fuel + 2) span m
          = .ok (some (.typeLit m.span
              (lits.map (fun t => mappedPropertyFor m (Key.normal t.2.1 t.2.2))))))
    ∧ (∀ (m : MappedData) (key : Key), ∃ ro opt : Bool,
        mappedPropertyFor m key
          = .property key.span ro key opt
              (m.template.map (fun mty => substTy [(m.paramName, key.ty)] mty)))
    ∧ (∀ (fuel : Nat) (span usp : Span) (pre : List Ty) (t : Ty) (post : List Ty),
        (∀ u ∈ pre, ∃ ks, convert_type_to_keys specOps fuel span u = .ok (some ks)) →
        convert_type_to_keys specOps fuel span t = .ok none →
        convert_type_to_keys specOps (fuel + 1) span (.union usp (pre ++ t :: post))
          = .ok none)
    ∧ (expand_mapped specOps 2 0
        { span := 9, readonly := none, optional := none, paramName := "K",
          constraint := some (.union 1 [.lit 2 (.str 3 "a"), .lit 4 (.str 5 "b")]),
          template := some (.keyword 6 .number) }
        = .ok (some (.typeLit 9
            [.property 3 Bool.false (.normal 3 "a") Bool.false (some (.keyword 6 .number)),
             .property 5 Bool.false (.normal 5 "b") Bool.false
               (some (.keyword 6 .number))]))) := by
  refine ⟨?_, ?_, ?_, ?_⟩
  · intro fuel span usp m lits hc
    exact expandMapped_strLit_union fuel span usp m lits hc
  · intro m key
    exact ⟨applyFlag Bool.false m.readonly, applyFlag Bool.false m.optional,
      by simp [mappedPropertyFor, applyMappedFlags]⟩
  · intro fuel span usp pre t post hpre ht
    simp only [convert_type_to_keys]
    exact convertKeysUnionLoop_none (convert_type_to_keys specOps fuel span) pre t post
      hpre ht []
  · have h := expandMapped_strLit_union 0 0 1
      { span := 9, readonly := none, optional := none, paramName := "K",
        constraint := some (.union 1 [.lit 2 (.str 3 "a"), .lit 4 (.str 5 "b")]),
        template := some (.keyword 6 .number) }
      [(2, 3, "a"), (4, 5, "b")] rfl
    rw [h]
    simp [mappedPropertyFor, applyMappedFlags, applyFlag, Key.ty, Key.span, substTy]

/-- Witness for C8 at a singleton union, exercising the general expansion at
a concrete mapped type without a template. -/
theorem c8_union_of_string_literal_keys_witness :
    expand_mapped specOps 2 0
      { span := 9, readonly := none, optional := none, paramName := "K",
        constraint := some (.union 1 [.lit 2 (.str 3 "a")]), template := none }
      = .ok (some (.typeLit 9
          [mappedPropertyFor
            { span := 9, readonly := none, optional := none, paramName := "K",
              constraint := some (.union 1 [.lit 2 (.str 3 "a")]), template := none }
            (.normal 3 "a")])) :=
  c8_union_of_string_literal_keys.1 0 0 1
    { span := 9, readonly := none, optional := none, paramName := "K",
      constraint := some (.union 1 [.lit 2 (.str 3 "a")]), template := none }
    [(2, 3, "a")] rfl

end Stc
